import Mathlib

/-!
Verification development for the nearby-medicine search engine of the
medicine-availability app (frontend/src/lib/supabase.js and its callers).

The core under scrutiny is `searchMedicines(searchTerm, lat, lng, radius)`:
it queries the `medicines` table (joined with `stores`) for rows with
`is_available = true` and `quantity > 0`, optionally restricted by a
three-field case-insensitive `ilike` disjunction, then — when a JS-truthy
origin is supplied — annotates each row with a haversine distance
(sentinel 9999 when store coordinates are JS-falsy), filters by
`distance_km <= radius`, and sorts with the stable comparator
`(a.distance_km || 9999) - (b.distance_km || 9999)`.

Modelling conventions:
* JS numbers are modelled as real numbers `ℝ`; SQL `NULL` / absent JS
  values as `Option`.  JS truthiness of a number is `v ≠ 0`.
* Strings are `List Char`; Postgres `ILIKE` case-folding is `Char.toLower`.
* The record store (Supabase/PostgREST) is the external collaborator: it is
  modelled as either a failing backend or a list of joined rows, and the
  query predicate (`eq is_available true`, `gt quantity 0`, the `or` of the
  three `ilike` patterns) is applied to that list with standard SQL
  semantics (`NULL ilike p` is not a match).
* `await query` either yields data or throws: modelled with `Except`.
-/

namespace MedSearch

open Real List

/-- Model of JavaScript `Math.atan2 y x` on real numbers (the sign-of-zero
distinctions of IEEE floats collapse in `ℝ`). -/
noncomputable def atan2 (y x : ℝ) : ℝ :=
  if 0 < x then Real.arctan (y / x)
  else if x < 0 then
    (if 0 ≤ y then Real.arctan (y / x) + π else Real.arctan (y / x) - π)
  else if 0 < y then π / 2
  else if y < 0 then -(π / 2)
  else 0

/-- Embedding of `calculateDistance(lat1, lon1, lat2, lon2)` from
supabase.js (lines 472-483): haversine via `atan2`, Earth radius 6371 km,
degree inputs. -/
noncomputable def calculateDistance (lat1 lon1 lat2 lon2 : ℝ) : ℝ :=
  let R : ℝ := 6371
  let dLat : ℝ := (lat2 - lat1) * π / 180
  let dLon : ℝ := (lon2 - lon1) * π / 180
  let a : ℝ :=
    Real.sin (dLat / 2) * Real.sin (dLat / 2) +
      Real.cos (lat1 * π / 180) * Real.cos (lat2 * π / 180) *
        Real.sin (dLon / 2) * Real.sin (dLon / 2)
  let c : ℝ := 2 * atan2 (Real.sqrt a) (Real.sqrt (1 - a))
  R * c

/-- The haversine distance exactly as the spec states it (section 4.1
step 3): `d = 2R·asin(√(sin²(Δlat/2) + cos(lat1)·cos(lat2)·sin²(Δlng/2)))`
with `R = 6371` and angles in radians.  This definition follows the spec's
words; it is compared with `calculateDistance`, which follows the source. -/
noncomputable def haversineSpec (lat1 lon1 lat2 lon2 : ℝ) : ℝ :=
  2 * 6371 *
    Real.arcsin (Real.sqrt
      (Real.sin ((lat2 - lat1) * π / 180 / 2) ^ 2 +
        Real.cos (lat1 * π / 180) * Real.cos (lat2 * π / 180) *
          Real.sin ((lon2 - lon1) * π / 180 / 2) ^ 2))

/-- Postgres `LIKE`/`ILIKE` pattern matching on character lists, with the
case-folding of `ILIKE` built in: `%` matches any sequence, `_` matches any
single character, a backslash (the default `ESCAPE` character) makes the
following pattern character literal (`\%` matches a literal `%`, `\\` a
literal backslash; a dangling final escape never matches — Postgres rejects
such patterns outright, and they cannot arise from the code's `%`-wrapping),
and any other pattern character matches case-insensitively.  The search
code interpolates the raw search term into `name.ilike.%${searchTerm}%`,
so the term's own `%`/`_`/`\` characters act as pattern syntax, not
literals. -/
def likeMatches : List Char → List Char → Bool
  | [], [] => true
  | [], _ :: _ => false
  | c :: p, [] => if c = '%' then likeMatches p [] else false
  | c :: p, d :: s =>
    if c = '%' then likeMatches p (d :: s) || likeMatches (c :: p) s
    else if c = '\\' then
      !p.isEmpty && (Char.toLower (p.headD c) == Char.toLower d) &&
        likeMatches p.tail s
    else (c == '_' || Char.toLower c == Char.toLower d) && likeMatches p s
termination_by p s => (s.length, p.length)

/-- The pattern `%term%` built by `searchMedicines` around the raw term. -/
def pctWrap (term : List Char) : List Char :=
  '%' :: (term ++ ['%'])

/-- SQL semantics of `column ilike pattern` for a nullable column: a `NULL`
column never matches. -/
def likeMatchesOpt (pat : List Char) : Option (List Char) → Bool
  | none => false
  | some s => likeMatches pat s

/-- One pharmacy row of the `stores` table (the attributes the search
pipeline reads; remaining columns are carried through unchanged by the
code and are irrelevant to the claims). -/
structure StoreRow where
  id : Nat
  latitude : Option ℝ
  longitude : Option ℝ

/-- One row of the `medicines` table joined with its store, restricted to
the fields the search pipeline reads.  `quantity` is an integer column,
`expiry_date` a nullable date (encoded as days, only ever compared), and
`stores` is the joined store (absent if the foreign row is missing). -/
structure MedRow where
  id : Nat
  name : List Char
  generic_name : Option (List Char)
  manufacturer : Option (List Char)
  quantity : Int
  expiry_date : Option Int
  is_available : Bool
  stores : Option StoreRow

/-- JavaScript `String.prototype.trim` on character lists. -/
def jsTrim (t : List Char) : List Char :=
  ((t.dropWhile Char.isWhitespace).reverse.dropWhile Char.isWhitespace).reverse

/-- The guard `if (searchTerm && searchTerm.trim())` of `searchMedicines`:
the text filter is attached only when the term is a nonempty string whose
trim is nonempty. -/
def searchTermActive (t : List Char) : Bool :=
  !t.isEmpty && !(jsTrim t).isEmpty

/-- The `or` filter built by `searchMedicines`:
`name.ilike.%term%,generic_name.ilike.%term%,manufacturer.ilike.%term%`. -/
def matchesText (term : List Char) (m : MedRow) : Bool :=
  likeMatches (pctWrap term) m.name ||
    likeMatchesOpt (pctWrap term) m.generic_name ||
      likeMatchesOpt (pctWrap term) m.manufacturer

/-- The row predicate of the built query: `eq('is_available', true)`,
`gt('quantity', 0)`, and, when the term is active, the text disjunction. -/
def queryFilter (term : List Char) (m : MedRow) : Bool :=
  m.is_available && decide (0 < m.quantity) &&
    (!searchTermActive term || matchesText term m)

/-- Executing the built query against the backing `medicines` table. -/
def runQuery (db : List MedRow) (term : List Char) : List MedRow :=
  db.filter (queryFilter term)

/-- A returned search result: the row, plus the `distance_km` key the code
attaches in the located branch (`none` when the key was never added). -/
structure SearchResult where
  item : MedRow
  distance_km : Option ℝ

/-- The `results.map(...)` step: when the joined store and both of its
coordinates are JS-truthy (`item.stores?.latitude && item.stores?.longitude`)
the haversine distance from the origin is attached, otherwise the sentinel
`distance_km: 9999`.  A numeric coordinate equal to `0` is JS-falsy. -/
noncomputable def addDistance (la lo : ℝ) (m : MedRow) : SearchResult :=
  match m.stores with
  | some st =>
    match st.latitude, st.longitude with
    | some sla, some slo =>
      if sla ≠ 0 ∧ slo ≠ 0 then ⟨m, some (calculateDistance la lo sla slo)⟩
      else ⟨m, some 9999⟩
    | _, _ => ⟨m, some 9999⟩
  | none => ⟨m, some 9999⟩

/-- The `results.filter(item => item.distance_km <= radius)` step (an
absent key compares as `NaN <= radius`, i.e. false). -/
noncomputable def distLe (radius : ℝ) (r : SearchResult) : Bool :=
  match r.distance_km with
  | some d => decide (d ≤ radius)
  | none => false

/-- The sort key of `results.sort((a, b) => (a.distance_km || 9999) -
(b.distance_km || 9999))`: an absent or zero `distance_km` is coerced to
9999 by the `||`. -/
noncomputable def jsSortKey (r : SearchResult) : ℝ :=
  match r.distance_km with
  | some d => if d = 0 then 9999 else d
  | none => 9999

/-- The comparator order of the sort step. -/
noncomputable def sortRel (a b : SearchResult) : Prop :=
  jsSortKey a ≤ jsSortKey b

noncomputable instance : DecidableRel sortRel := fun a b =>
  inferInstanceAs (Decidable (jsSortKey a ≤ jsSortKey b))

/-- The in-range candidates in backing-store order: the distance-annotation
map followed by the radius filter, before sorting. -/
noncomputable def rankedCandidates (rows : List MedRow) (la lo radius : ℝ) :
    List SearchResult :=
  (rows.map (addDistance la lo)).filter (distLe radius)

/-- The post-query part of `searchMedicines`: under
`if (lat && lng && results.length > 0)` the rows are annotated with
distances, filtered by radius and stably sorted; otherwise the rows are
returned as they came from the query (no `distance_km` key). -/
noncomputable def processResults (rows : List MedRow) (lat lng : Option ℝ)
    (radius : ℝ) : List SearchResult :=
  match lat, lng with
  | some la, some lo =>
    if la ≠ 0 ∧ lo ≠ 0 ∧ 0 < rows.length then
      List.insertionSort sortRel (rankedCandidates rows la lo radius)
    else rows.map (fun m => ⟨m, none⟩)
  | _, _ => rows.map (fun m => ⟨m, none⟩)

/-- A backend error token (`error` from the Supabase response). -/
structure DBError where
  code : Nat
deriving DecidableEq

/-- The record-store collaborator: either a working backend holding the
`medicines` table, or a failing one (network/backend error). -/
inductive RecordStore where
  | failing (e : DBError)
  | tables (db : List MedRow)

/-- Awaiting the built query: a failing backend yields `error`, a working
one yields the filtered rows as `data`. -/
def fetchRows (rs : RecordStore) (term : List Char) :
    Except DBError (Option (List MedRow)) :=
  match rs with
  | .failing e => .error e
  | .tables db => .ok (some (runQuery db term))

/-- Embedding of `searchMedicines(searchTerm, lat, lng, radius)` from
supabase.js (lines 157-248): build and await the query, throw on `error`
(`if (error) throw error`, and the outer `catch` rethrows), default the
data with `data || []`, then apply the distance/filter/sort phase. -/
noncomputable def searchMedicines (rs : RecordStore) (searchTerm : List Char)
    (lat lng : Option ℝ) (radius : ℝ) : Except DBError (List SearchResult) :=
  match fetchRows rs searchTerm with
  | .error e => .error e
  | .ok data => .ok (processResults (data.getD []) lat lng radius)

/-! ### Basic unfolding and membership lemmas for the pipeline -/

theorem searchMedicines_tables (db : List MedRow) (term : List Char)
    (lat lng : Option ℝ) (radius : ℝ) :
    searchMedicines (.tables db) term lat lng radius
      = .ok (processResults (runQuery db term) lat lng radius) := rfl

theorem searchMedicines_failing (e : DBError) (term : List Char)
    (lat lng : Option ℝ) (radius : ℝ) :
    searchMedicines (.failing e) term lat lng radius = .error e := rfl

theorem processResults_no_lat (rows : List MedRow) (lng : Option ℝ) (radius : ℝ) :
    processResults rows none lng radius = rows.map (fun m => ⟨m, none⟩) := by
  cases lng <;> rfl

theorem processResults_no_lng (rows : List MedRow) (lat : Option ℝ) (radius : ℝ) :
    processResults rows lat none radius = rows.map (fun m => ⟨m, none⟩) := by
  cases lat <;> rfl

theorem processResults_some_some (rows : List MedRow) (radius la lo : ℝ) :
    processResults rows (some la) (some lo) radius
      = if la ≠ 0 ∧ lo ≠ 0 ∧ 0 < rows.length then
          List.insertionSort sortRel (rankedCandidates rows la lo radius)
        else rows.map (fun m => ⟨m, none⟩) := rfl

theorem processResults_located {la lo : ℝ} (rows : List MedRow) (radius : ℝ)
    (h1 : la ≠ 0) (h2 : lo ≠ 0) (h3 : 0 < rows.length) :
    processResults rows (some la) (some lo) radius
      = List.insertionSort sortRel (rankedCandidates rows la lo radius) := by
  rw [processResults_some_some, if_pos ⟨h1, h2, h3⟩]

theorem processResults_zero_coord {la lo : ℝ} (rows : List MedRow) (radius : ℝ)
    (h : la = 0 ∨ lo = 0) :
    processResults rows (some la) (some lo) radius
      = rows.map (fun m => ⟨m, none⟩) := by
  rw [processResults_some_some, if_neg]
  rintro ⟨h1, h2, -⟩
  rcases h with h | h <;> [exact h1 h; exact h2 h]

theorem mem_runQuery {m : MedRow} {db : List MedRow} {term : List Char} :
    m ∈ runQuery db term ↔ m ∈ db ∧ queryFilter term m = true := by
  simp [runQuery, List.mem_filter]

theorem addDistance_item (la lo : ℝ) (m : MedRow) :
    (addDistance la lo m).item = m := by
  unfold addDistance
  repeat' split
  all_goals rfl

theorem addDistance_isSome (la lo : ℝ) (m : MedRow) :
    ∃ d, (addDistance la lo m).distance_km = some d := by
  unfold addDistance
  repeat' split
  all_goals exact ⟨_, rfl⟩

theorem mem_rankedCandidates {r : SearchResult} {rows : List MedRow}
    {la lo radius : ℝ} :
    r ∈ rankedCandidates rows la lo radius ↔
      (∃ m ∈ rows, addDistance la lo m = r) ∧ distLe radius r = true := by
  simp [rankedCandidates, List.mem_filter, List.mem_map]

theorem item_mem_of_mem_processResults {r : SearchResult} {rows : List MedRow}
    {lat lng : Option ℝ} {radius : ℝ}
    (h : r ∈ processResults rows lat lng radius) : r.item ∈ rows := by
  rcases lat with - | la <;> rcases lng with - | lo
  · rw [processResults_no_lat] at h
    obtain ⟨m, hm, rfl⟩ := List.mem_map.1 h; exact hm
  · rw [processResults_no_lat] at h
    obtain ⟨m, hm, rfl⟩ := List.mem_map.1 h; exact hm
  · rw [processResults_no_lng] at h
    obtain ⟨m, hm, rfl⟩ := List.mem_map.1 h; exact hm
  · rw [processResults_some_some] at h
    by_cases hc : la ≠ 0 ∧ lo ≠ 0 ∧ 0 < rows.length
    · rw [if_pos hc] at h
      rw [List.mem_insertionSort] at h
      obtain ⟨⟨m, hm, rfl⟩, -⟩ := mem_rankedCandidates.1 h
      rw [addDistance_item]
      exact hm
    · rw [if_neg hc] at h
      obtain ⟨m, hm, rfl⟩ := List.mem_map.1 h
      exact hm

theorem distLe_eq_true {radius : ℝ} {r : SearchResult} :
    distLe radius r = true ↔ ∃ d, r.distance_km = some d ∧ d ≤ radius := by
  unfold distLe
  rcases h : r.distance_km with - | d <;> simp

theorem processResults_nil (lat lng : Option ℝ) (radius : ℝ) :
    processResults [] lat lng radius = [] := by
  rcases lat with - | la <;> rcases lng with - | lo <;>
    simp [processResults_no_lat, processResults_no_lng, processResults_some_some]

instance : IsTotal SearchResult sortRel :=
  ⟨fun a b => le_total (jsSortKey a) (jsSortKey b)⟩

instance : IsTrans SearchResult sortRel :=
  ⟨fun _ _ _ hab hbc => le_trans hab hbc⟩

/-! ### Concrete rows used in counterexamples and witnesses -/

/-- A store far from the test origins (used where only its existence and
coordinates matter). -/
def storeFar : StoreRow := ⟨1, some 10, some 20⟩

/-- An available, in-stock medicine stocked at `storeFar`. -/
def medFar : MedRow := ⟨1, "Aspirin".toList, none, none, 5, none, true, some storeFar⟩

/-- An available, in-stock medicine whose expiry date has passed
(one day before the reference date 0) and whose store row is absent. -/
def medExpired : MedRow := ⟨2, "Aspirin".toList, none, none, 3, some (-1), true, none⟩

/-- An available, in-stock medicine with no joined store row (no
coordinates at all). -/
def medNoStore : MedRow := ⟨3, "Aspirin".toList, none, none, 5, none, true, none⟩

theorem addDistance_no_store (la lo : ℝ) {m : MedRow} (hm : m.stores = none) :
    addDistance la lo m = ⟨m, some 9999⟩ := by
  unfold addDistance
  rw [hm]

theorem processResults_single_9999 (la lo radius : ℝ)
    (h1 : la ≠ 0) (h2 : lo ≠ 0) (m : MedRow) (hm : m.stores = none) :
    processResults [m] (some la) (some lo) radius
      = if (9999:ℝ) ≤ radius then [⟨m, some 9999⟩] else [] := by
  rw [processResults_located _ _ h1 h2 (by simp)]
  by_cases hr : (9999:ℝ) ≤ radius
  · rw [if_pos hr]
    simp [rankedCandidates, addDistance_no_store la lo hm, distLe, hr,
      List.insertionSort, List.orderedInsert]
  · rw [if_neg hr]
    simp [rankedCandidates, addDistance_no_store la lo hm, distLe, hr,
      List.insertionSort]

/-- Shared evaluation: searching with origin (1, 1) and radius 10000 over a
single candidate with no store row returns that candidate, carrying the
sentinel distance 9999. -/
theorem eval_noStore_10000 :
    searchMedicines (.tables [medNoStore]) [] (some 1) (some 1) 10000
      = .ok [⟨medNoStore, some 9999⟩] := by
  have h : runQuery [medNoStore] [] = [medNoStore] := rfl
  rw [searchMedicines_tables, h,
    processResults_single_9999 _ _ _ (by norm_num) (by norm_num) _ rfl,
    if_pos (by norm_num)]

/-! ### C4: behaviour when the origin is absent -/

/-- C4 (counterexample): with the origin absent the code does not apply any
radius filter from any reference point — the matching far-away candidate is
returned even for a radius of one metre, the output carries no distance,
and it is identical to the output for a radius of 40000 km.  The claim says
a defined default reference point must still be used for the radius
filter. -/
theorem C4_counterexample :
    searchMedicines (.tables [medFar]) [] none none (1/1000)
        = .ok [⟨medFar, none⟩] ∧
      searchMedicines (.tables [medFar]) [] none none (1/1000)
        = searchMedicines (.tables [medFar]) [] none none 40000 :=
  ⟨rfl, rfl⟩

/-- C4 (amended): when the origin is absent, `searchMedicines` does not
fail, but it skips the distance computation and the radius filter entirely:
it returns exactly the query's candidate rows, in backing order, with no
`distance_km` annotation, for every radius. -/
theorem C4_no_origin_skips_radius_filter (db : List MedRow) (term : List Char)
    (radius : ℝ) :
    searchMedicines (.tables db) term none none radius
      = .ok ((runQuery db term).map (fun m => ⟨m, none⟩)) := rfl

/-! ### C10: empty or whitespace-only search term -/

/-- C10: a search term whose JS `trim()` is empty disables the text
predicate; the search does not fail and returns the full
available/in-stock pipeline result (still subject to the distance phase for
a truthy origin). -/
theorem C10_blank_query_returns_all (db : List MedRow) (term : List Char)
    (lat lng : Option ℝ) (radius : ℝ) (h : jsTrim term = []) :
    searchMedicines (.tables db) term lat lng radius
      = .ok (processResults
          (db.filter (fun m => m.is_available && decide (0 < m.quantity)))
          lat lng radius) := by
  have hact : searchTermActive term = false := by
    simp [searchTermActive, h]
  rw [searchMedicines_tables]
  have hq : runQuery db term
      = db.filter (fun m => m.is_available && decide (0 < m.quantity)) := by
    unfold runQuery
    apply List.filter_congr
    intro m _
    simp [queryFilter, hact]
  rw [hq]

/-- C10 (witness): the whitespace-only term made of three blanks. -/
theorem C10_witness :
    jsTrim ("   ".toList) = [] ∧
      searchMedicines (.tables [medNoStore]) ("   ".toList) none none 50
        = .ok (processResults
            (List.filter (fun m => m.is_available && decide (0 < m.quantity))
              [medNoStore])
            none none 50) :=
  ⟨by decide, C10_blank_query_returns_all [medNoStore] _ none none 50 (by decide)⟩

/-! ### C9: retrieval failure versus empty result -/

/-- C9: a failing record-store read makes `searchMedicines` surface the
error (it never yields a result list), and an `ok []` result means that
every row of the table either fails the query predicate (availability,
stock, text match) or — with a truthy origin `some la, some lo` — fails the
radius test `distance_km ≤ radius`. -/
theorem C9_failure_propagates_empty_means_none :
    (∀ (e : DBError) (term : List Char) (lat lng : Option ℝ) (radius : ℝ),
        searchMedicines (.failing e) term lat lng radius = .error e) ∧
      ∀ (db : List MedRow) (term : List Char) (lat lng : Option ℝ) (radius : ℝ),
        searchMedicines (.tables db) term lat lng radius = .ok [] →
        ∀ m ∈ db, queryFilter term m = true →
          ∃ la lo, lat = some la ∧ lng = some lo ∧ la ≠ 0 ∧ lo ≠ 0 ∧
            distLe radius (addDistance la lo m) = false := by
  refine ⟨fun e term lat lng radius => rfl, ?_⟩
  intro db term lat lng radius h m hm hq
  rw [searchMedicines_tables] at h
  have hproc := Except.ok.inj h
  have hmem : m ∈ runQuery db term := mem_runQuery.2 ⟨hm, hq⟩
  rcases lat with - | la
  · rw [processResults_no_lat] at hproc
    rw [List.map_eq_nil_iff] at hproc
    rw [hproc] at hmem
    cases hmem
  rcases lng with - | lo
  · rw [processResults_no_lng] at hproc
    rw [List.map_eq_nil_iff] at hproc
    rw [hproc] at hmem
    cases hmem
  rw [processResults_some_some] at hproc
  by_cases hc : la ≠ 0 ∧ lo ≠ 0 ∧ 0 < (runQuery db term).length
  · rw [if_pos hc] at hproc
    have hlen := List.length_insertionSort sortRel
      (rankedCandidates (runQuery db term) la lo radius)
    rw [hproc] at hlen
    have hrk : rankedCandidates (runQuery db term) la lo radius = [] :=
      List.eq_nil_of_length_eq_zero hlen.symm
    unfold rankedCandidates at hrk
    rw [List.filter_eq_nil_iff] at hrk
    refine ⟨la, lo, rfl, rfl, hc.1, hc.2.1, ?_⟩
    have := hrk _ (List.mem_map_of_mem (addDistance la lo) hmem)
    exact Bool.not_eq_true _ |>.mp this
  · rw [if_neg hc] at hproc
    rw [List.map_eq_nil_iff] at hproc
    rw [hproc] at hmem
    cases hmem

/-- C9 (witness): a concrete failing backend, and a concrete empty table
whose search returns `ok []`. -/
theorem C9_witness :
    searchMedicines (.failing ⟨7⟩) [] none none 50 = .error ⟨7⟩ ∧
      ∀ m ∈ ([] : List MedRow), queryFilter [] m = true →
        ∃ la lo, (none : Option ℝ) = some la ∧ (none : Option ℝ) = some lo ∧
          la ≠ 0 ∧ lo ≠ 0 ∧ distLe 50 (addDistance la lo m) = false :=
  ⟨C9_failure_propagates_empty_means_none.1 ⟨7⟩ [] none none 50,
    C9_failure_propagates_empty_means_none.2 [] [] none none 50 rfl⟩

/-! ### C2: availability, stock and expiry of returned results -/

/-- C2 (counterexample): `searchMedicines` applies no expiry filter: an
available, in-stock medicine whose expiry date (−1) lies strictly before
the current date (0) is returned.  The claim asserts no returned result has
a past expiry date. -/
theorem C2_counterexample :
    searchMedicines (.tables [medExpired]) [] none none 50
        = .ok [⟨medExpired, none⟩] ∧
      medExpired.expiry_date = some (-1) ∧ ¬ ((0:Int) ≤ -1) :=
  ⟨rfl, rfl, by decide⟩

/-- C2 (amended): every returned result does satisfy `quantity > 0` and
`is_available = true`; the expiry condition, however, is not checked by the
search — it holds only under the additional hypothesis that every
available, in-stock row of the backing table is unexpired, i.e. the table
contains no available, in-stock row with a past expiry date (e.g. after the
separate `removeExpiredMedicines` cleanup has run). -/
theorem C2_results_available_in_stock (db : List MedRow) (term : List Char)
    (lat lng : Option ℝ) (radius : ℝ) (today : Int) (l : List SearchResult)
    (h : searchMedicines (.tables db) term lat lng radius = .ok l) :
    ∀ r ∈ l,
      (r.item.is_available = true ∧ 0 < r.item.quantity) ∧
        ((∀ m ∈ db, m.is_available = true → 0 < m.quantity →
            m.expiry_date = none ∨ ∃ e, m.expiry_date = some e ∧ today ≤ e) →
          (r.item.expiry_date = none ∨
            ∃ e, r.item.expiry_date = some e ∧ today ≤ e)) := by
  intro r hr
  rw [searchMedicines_tables] at h
  have hl := Except.ok.inj h
  rw [← hl] at hr
  have hmem := item_mem_of_mem_processResults hr
  obtain ⟨hdb, hq⟩ := mem_runQuery.1 hmem
  unfold queryFilter at hq
  rw [Bool.and_eq_true, Bool.and_eq_true] at hq
  exact ⟨⟨hq.1.1, of_decide_eq_true hq.1.2⟩,
    fun hall => hall _ hdb hq.1.1 (of_decide_eq_true hq.1.2)⟩

/-- C2 (witness): the single result of a concrete search, checked. -/
theorem C2_witness :
    ((⟨medNoStore, none⟩ : SearchResult).item.is_available = true ∧
        0 < (⟨medNoStore, none⟩ : SearchResult).item.quantity) ∧
      ((∀ m ∈ [medNoStore], m.is_available = true → 0 < m.quantity →
          m.expiry_date = none ∨ ∃ e, m.expiry_date = some e ∧ (0:Int) ≤ e) →
        ((⟨medNoStore, none⟩ : SearchResult).item.expiry_date = none ∨
          ∃ e, (⟨medNoStore, none⟩ : SearchResult).item.expiry_date = some e ∧
            (0:Int) ≤ e)) :=
  C2_results_available_in_stock [medNoStore] [] none none 50 0
    [⟨medNoStore, none⟩] rfl ⟨medNoStore, none⟩ (List.mem_singleton.2 rfl)

/-! ### C1: the radius bound on returned results -/

/-- C1 (counterexample): searching the non-empty query `asp` from origin
latitude 0 (a valid coordinate on the equator, but JS-falsy) with radius
1 km skips the distance/radius phase entirely: the matching candidate whose
store is far beyond the radius is returned, with no computed distance at
all, so it fails the claim's in-range property. -/
theorem C1_counterexample :
    ("asp".toList ≠ ([] : List Char)) ∧
      searchMedicines (.tables [medFar]) ("asp".toList) (some 0) (some 77) 1
        = .ok [⟨medFar, none⟩] ∧
      ¬ ∃ d : ℝ, (⟨medFar, none⟩ : SearchResult).distance_km = some d ∧ d ≤ 1 := by
  refine ⟨by decide, ?_, ?_⟩
  · have hmt : matchesText ("asp".toList) medFar = true := by
      simp [matchesText, pctWrap, likeMatches, medFar]
    have hqf : queryFilter ("asp".toList) medFar = true := by
      unfold queryFilter
      rw [hmt]
      simp [medFar, searchTermActive, jsTrim]
    have hq : runQuery [medFar] ("asp".toList) = [medFar] := by
      unfold runQuery
      rw [List.filter_cons, hqf]
      simp
    rw [searchMedicines_tables, hq, processResults_zero_coord _ _ (Or.inl rfl)]
    rfl
  · rintro ⟨d, hd, -⟩
    exact Option.noConfusion hd

/-- C1 (amended): when both origin coordinates are nonzero (JS-truthy),
every returned result carries a computed `distance_km` and it is at most
the radius.  (When either coordinate is 0 or absent the whole radius phase
is skipped, as the counterexample shows.) -/
theorem C1_within_radius (db : List MedRow) (term : List Char)
    (la lo radius : ℝ) (l : List SearchResult)
    (h1 : la ≠ 0) (h2 : lo ≠ 0)
    (h : searchMedicines (.tables db) term (some la) (some lo) radius = .ok l) :
    ∀ r ∈ l, ∃ d, r.distance_km = some d ∧ d ≤ radius := by
  intro r hr
  rw [searchMedicines_tables] at h
  have hl := Except.ok.inj h
  rw [← hl, processResults_some_some] at hr
  by_cases hc : la ≠ 0 ∧ lo ≠ 0 ∧ 0 < (runQuery db term).length
  · rw [if_pos hc] at hr
    rw [List.mem_insertionSort] at hr
    obtain ⟨-, hd⟩ := mem_rankedCandidates.1 hr
    exact distLe_eq_true.1 hd
  · rw [if_neg hc] at hr
    have hlen : ¬ 0 < (runQuery db term).length := fun hp => hc ⟨h1, h2, hp⟩
    have hnil : runQuery db term = [] := by
      cases hq : runQuery db term with
      | nil => rfl
      | cons a l' => rw [hq] at hlen; simp at hlen
    rw [hnil] at hr
    cases hr

/-- C1 (witness): a concrete truthy origin and non-empty query on an empty
table. -/
theorem C1_witness :
    ((3:ℝ) ≠ 0) ∧ ((4:ℝ) ≠ 0) ∧
      ∀ r ∈ ([] : List SearchResult), ∃ d, r.distance_km = some d ∧ d ≤ (5:ℝ) := by
  refine ⟨by norm_num, by norm_num, ?_⟩
  apply C1_within_radius [] ("asp".toList) 3 4 5 [] (by norm_num) (by norm_num)
  have h : runQuery [] ("asp".toList) = ([] : List MedRow) := rfl
  rw [searchMedicines_tables, h, processResults_nil]

/-! ### C5: non-positive radius -/

/-- C5 (counterexample): radius 0 is not rejected; the search silently
returns the empty result set `.ok []` instead of raising a validation
error.  The claim says it must raise `ValidationError` and never return a
result set, not even an empty one. -/
theorem C5_counterexample :
    searchMedicines (.tables [medNoStore]) [] (some 1) (some 1) 0 = .ok [] := by
  have h : runQuery [medNoStore] [] = [medNoStore] := rfl
  rw [searchMedicines_tables, h,
    processResults_single_9999 _ _ _ (by norm_num) (by norm_num) _ rfl,
    if_neg (by norm_num)]

/-- C5 (amended): a radius ≤ 0 is not validated anywhere: the search
succeeds, and every result that carries a computed distance satisfies
`distance ≤ 0` (with a falsy origin the radius — like any radius — is
ignored and results carry no distance). -/
theorem C5_nonpositive_radius_not_validated (db : List MedRow)
    (term : List Char) (lat lng : Option ℝ) (radius : ℝ) (hrad : radius ≤ 0) :
    ∃ l, searchMedicines (.tables db) term lat lng radius = .ok l ∧
      ∀ r ∈ l, ∀ d : ℝ, r.distance_km = some d → d ≤ 0 := by
  refine ⟨processResults (runQuery db term) lat lng radius,
    searchMedicines_tables db term lat lng radius, ?_⟩
  intro r hr d hd
  rcases lat with - | la
  · rw [processResults_no_lat] at hr
    obtain ⟨m, -, rfl⟩ := List.mem_map.1 hr
    exact Option.noConfusion hd
  rcases lng with - | lo
  · rw [processResults_no_lng] at hr
    obtain ⟨m, -, rfl⟩ := List.mem_map.1 hr
    exact Option.noConfusion hd
  rw [processResults_some_some] at hr
  by_cases hc : la ≠ 0 ∧ lo ≠ 0 ∧ 0 < (runQuery db term).length
  · rw [if_pos hc] at hr
    rw [List.mem_insertionSort] at hr
    obtain ⟨-, hdle⟩ := mem_rankedCandidates.1 hr
    obtain ⟨d', hd', hle⟩ := distLe_eq_true.1 hdle
    rw [hd'] at hd
    cases Option.some.inj hd
    exact le_trans hle hrad
  · rw [if_neg hc] at hr
    obtain ⟨m, -, rfl⟩ := List.mem_map.1 hr
    exact Option.noConfusion hd

/-- C5 (witness): radius 0 on an empty table. -/
theorem C5_witness :
    ((0:ℝ) ≤ 0) ∧
      ∃ l, searchMedicines (.tables []) [] none none 0 = .ok l ∧
        ∀ r ∈ l, ∀ d : ℝ, r.distance_km = some d → d ≤ 0 :=
  ⟨le_refl 0, C5_nonpositive_radius_not_validated [] [] none none 0 (le_refl 0)⟩

/-! ### C7: candidates without usable coordinates -/

/-- The JS-falsy-coordinates condition actually tested by the code: the
joined store is missing, or one of its coordinates is `NULL` or `0`. -/
def storeCoordsFalsy (m : MedRow) : Prop :=
  m.stores = none ∨ ∃ st, m.stores = some st ∧
    (st.latitude = none ∨ st.longitude = none ∨
      st.latitude = some 0 ∨ st.longitude = some 0)

theorem addDistance_falsy (la lo : ℝ) {m : MedRow} (h : storeCoordsFalsy m) :
    addDistance la lo m = ⟨m, some 9999⟩ := by
  unfold addDistance
  split
  next st hst =>
    split
    next sla slo hla hlo =>
      rcases h with h | ⟨st', hst', hcase⟩
      · rw [h] at hst; cases hst
      · rw [hst'] at hst
        cases Option.some.inj hst
        rw [if_neg]
        rintro ⟨hne1, hne2⟩
        rcases hcase with h1 | h1 | h1 | h1
        · rw [h1] at hla; cases hla
        · rw [h1] at hlo; cases hlo
        · rw [h1] at hla; exact hne1 (Option.some.inj hla).symm
        · rw [h1] at hlo; exact hne2 (Option.some.inj hlo).symm
    next => rfl
  next => rfl

/-- C7 (counterexample): a candidate with no coordinates at all is not
excluded by the radius filter: with the positive radius 10000 it is
returned (with sentinel distance 9999).  The claim says such candidates are
excluded from the returned results by the radius filter. -/
theorem C7_counterexample :
    medNoStore.stores = none ∧ (0:ℝ) < 10000 ∧
      searchMedicines (.tables [medNoStore]) [] (some 1) (some 1) 10000
        = .ok [⟨medNoStore, some 9999⟩] :=
  ⟨rfl, by norm_num, eval_noStore_10000⟩

/-- C7 (amended): with a truthy origin, every returned result whose store
coordinates are JS-falsy (missing store, `NULL` or `0` coordinate) carries
the sentinel `distance_km = 9999` — and its presence in the output forces
`9999 ≤ radius`, i.e. such candidates are excluded exactly when the radius
is below 9999.  (Out-of-range but nonzero numeric coordinates are not
detected; they get an ordinary computed distance.) -/
theorem C7_sentinel (db : List MedRow) (term : List Char)
    (la lo radius : ℝ) (l : List SearchResult)
    (h1 : la ≠ 0) (h2 : lo ≠ 0)
    (h : searchMedicines (.tables db) term (some la) (some lo) radius = .ok l) :
    ∀ r ∈ l, storeCoordsFalsy r.item →
      r.distance_km = some 9999 ∧ (9999:ℝ) ≤ radius := by
  intro r hr hfalsy
  rw [searchMedicines_tables] at h
  have hl := Except.ok.inj h
  rw [← hl, processResults_some_some] at hr
  by_cases hc : la ≠ 0 ∧ lo ≠ 0 ∧ 0 < (runQuery db term).length
  · rw [if_pos hc] at hr
    rw [List.mem_insertionSort] at hr
    obtain ⟨⟨m, -, rfl⟩, hdle⟩ := mem_rankedCandidates.1 hr
    rw [addDistance_item] at hfalsy
    rw [addDistance_falsy la lo hfalsy] at hdle ⊢
    refine ⟨rfl, ?_⟩
    obtain ⟨d', hd', hle⟩ := distLe_eq_true.1 hdle
    cases Option.some.inj hd'
    exact hle
  · rw [if_neg hc] at hr
    have hlen : ¬ 0 < (runQuery db term).length := fun hp => hc ⟨h1, h2, hp⟩
    have hnil : runQuery db term = [] := by
      cases hq : runQuery db term with
      | nil => rfl
      | cons a l' => rw [hq] at hlen; simp at hlen
    rw [hnil] at hr
    cases hr

/-- C7 (witness): the sentinel-carrying result of the radius-10000 search. -/
theorem C7_witness :
    ((1:ℝ) ≠ 0) ∧ storeCoordsFalsy medNoStore ∧
      ((⟨medNoStore, some 9999⟩ : SearchResult).distance_km = some 9999 ∧
        (9999:ℝ) ≤ 10000) := by
  refine ⟨by norm_num, Or.inl rfl, ?_⟩
  exact C7_sentinel [medNoStore] [] 1 1 10000 [⟨medNoStore, some 9999⟩]
    (by norm_num) (by norm_num) eval_noStore_10000
    ⟨medNoStore, some 9999⟩ (List.mem_singleton.2 rfl) (Or.inl rfl)

/-! ### C3: ordering, stability, determinism of the sort phase -/

/-- Inserting an element into a list with `orderedInsert` places it before
exactly the equal-keyed elements already present (every element skipped has
a strictly smaller key), so filtering by any fixed key value commutes with
the insertion. -/
theorem filter_keyEq_orderedInsert (k : ℝ) (a : SearchResult)
    (l : List SearchResult) :
    (List.orderedInsert sortRel a l).filter (fun x => decide (jsSortKey x = k))
      = if jsSortKey a = k
          then a :: l.filter (fun x => decide (jsSortKey x = k))
          else l.filter (fun x => decide (jsSortKey x = k)) := by
  induction l with
  | nil =>
    rw [List.orderedInsert]
    by_cases hk : jsSortKey a = k
    · rw [if_pos hk]
      simp [List.filter_cons, hk]
    · rw [if_neg hk]
      simp [List.filter_cons, hk]
  | cons b l ih =>
    rw [List.orderedInsert]
    by_cases hab : sortRel a b
    · rw [if_pos hab]
      by_cases hk : jsSortKey a = k
      · rw [if_pos hk]; simp [List.filter_cons, hk]
      · rw [if_neg hk]; simp [List.filter_cons, hk]
    · rw [if_neg hab]
      have hlt : jsSortKey b < jsSortKey a := lt_of_not_le hab
      rw [List.filter_cons, ih]
      by_cases hk : jsSortKey a = k
      · have hbk : jsSortKey b ≠ k := fun hbk =>
          absurd (hbk.trans hk.symm) (ne_of_lt hlt)
        simp [List.filter_cons, hk, hbk]
      · by_cases hbk : jsSortKey b = k <;> simp [List.filter_cons, hk, hbk]

/-- Stability of the sort phase: filtering the sorted list by any fixed
comparator key yields the same sequence as filtering the unsorted input, so
equal-keyed results keep their backing order. -/
theorem filter_keyEq_insertionSort (k : ℝ) (l : List SearchResult) :
    (List.insertionSort sortRel l).filter (fun x => decide (jsSortKey x = k))
      = l.filter (fun x => decide (jsSortKey x = k)) := by
  induction l with
  | nil => rfl
  | cons a l ih =>
    rw [List.insertionSort, filter_keyEq_orderedInsert]
    by_cases hk : jsSortKey a = k
    · rw [if_pos hk, ih, List.filter_cons]
      simp [hk]
    · rw [if_neg hk, ih, List.filter_cons]
      simp [hk]

/-- C3 (amended): with a JS-truthy origin (both coordinates nonzero), every
returned result carries a computed `distance_km`, the returned sequence is
sorted non-decreasingly by the comparator key `distance_km || 9999` (which
coerces a distance of exactly 0 to 9999 — so such results sort last, as the
counterexample shows, rather than first), filtering by any fixed key value
reproduces the backing-store order of the in-range candidates (stability),
and repeated calls on identical input data return identical output. -/
theorem C3_sorted_stable_deterministic (db : List MedRow) (term : List Char)
    (la lo radius : ℝ) (l : List SearchResult)
    (h1 : la ≠ 0) (h2 : lo ≠ 0)
    (h : searchMedicines (.tables db) term (some la) (some lo) radius = .ok l) :
    (∀ r ∈ l, ∃ d, r.distance_km = some d) ∧
      l.Sorted sortRel ∧
      (∀ k : ℝ, l.filter (fun x => decide (jsSortKey x = k))
        = (rankedCandidates (runQuery db term) la lo radius).filter
            (fun x => decide (jsSortKey x = k))) ∧
      searchMedicines (.tables db) term (some la) (some lo) radius
        = searchMedicines (.tables db) term (some la) (some lo) radius := by
  rw [searchMedicines_tables] at h
  have hl := Except.ok.inj h
  rw [processResults_some_some] at hl
  by_cases hc : la ≠ 0 ∧ lo ≠ 0 ∧ 0 < (runQuery db term).length
  · rw [if_pos hc] at hl
    refine ⟨?_, ?_, ?_, rfl⟩
    · intro r hr
      rw [← hl, List.mem_insertionSort] at hr
      obtain ⟨⟨m, -, rfl⟩, -⟩ := mem_rankedCandidates.1 hr
      exact addDistance_isSome la lo m
    · rw [← hl]
      exact List.sorted_insertionSort sortRel _
    · intro k
      rw [← hl]
      exact filter_keyEq_insertionSort k _
  · rw [if_neg hc] at hl
    have hlen : ¬ 0 < (runQuery db term).length := fun hp => hc ⟨h1, h2, hp⟩
    have hnil : runQuery db term = [] := by
      cases hq : runQuery db term with
      | nil => rfl
      | cons a l' => rw [hq] at hlen; simp at hlen
    rw [hnil] at hl
    simp only [List.map_nil] at hl
    rw [← hl]
    refine ⟨fun r hr => absurd hr (List.not_mem_nil r), List.sorted_nil, ?_, rfl⟩
    intro k
    rw [hnil]
    simp [rankedCandidates]

/-- C3 (witness): a concrete truthy origin on an empty table. -/
theorem C3_witness :
    ((3:ℝ) ≠ 0) ∧ ((4:ℝ) ≠ 0) ∧
      ((∀ r ∈ ([] : List SearchResult), ∃ d, r.distance_km = some d) ∧
        ([] : List SearchResult).Sorted sortRel ∧
        (∀ k : ℝ, ([] : List SearchResult).filter (fun x => decide (jsSortKey x = k))
          = (rankedCandidates (runQuery [] []) 3 4 5).filter
              (fun x => decide (jsSortKey x = k))) ∧
        searchMedicines (.tables []) [] (some 3) (some 4) 5
          = searchMedicines (.tables []) [] (some 3) (some 4) 5) := by
  refine ⟨by norm_num, by norm_num, ?_⟩
  apply C3_sorted_stable_deterministic [] [] 3 4 5 [] (by norm_num) (by norm_num)
  have h : runQuery [] [] = ([] : List MedRow) := rfl
  rw [searchMedicines_tables, h, processResults_nil]

/-! ### C8: the text predicate versus case-insensitive substring search -/

/-- Lowercasing of a character list (the case folding of `ILIKE`). -/
def lowerStr (s : List Char) : List Char := s.map Char.toLower

theorem exists_of_map_eq_append {f : Char → Char} :
    ∀ {l a b : List Char}, l.map f = a ++ b →
      ∃ l1 l2, l = l1 ++ l2 ∧ l1.map f = a ∧ l2.map f = b := by
  intro l
  induction l with
  | nil =>
    intro a b h
    rw [List.map_nil] at h
    obtain ⟨ha, hb⟩ := List.append_eq_nil.1 h.symm
    exact ⟨[], [], rfl, by simp [ha], by simp [hb]⟩
  | cons c l ih =>
    intro a b h
    cases a with
    | nil =>
      exact ⟨[], c :: l, rfl, rfl, by simpa using h⟩
    | cons x a =>
      rw [List.map_cons, List.cons_append] at h
      injection h with h1 h2
      obtain ⟨l1, l2, rfl, hm1, hm2⟩ := ih h2
      exact ⟨c :: l1, l2, rfl, by rw [List.map_cons, hm1, h1], hm2⟩

theorem likeMatches_pct_iff (p : List Char) (s : List Char) :
    likeMatches ('%' :: p) s = true ↔
      ∃ s1 s2, s = s1 ++ s2 ∧ likeMatches p s2 = true := by
  induction s with
  | nil =>
    constructor
    · intro h
      refine ⟨[], [], rfl, ?_⟩
      simpa [likeMatches] using h
    · rintro ⟨s1, s2, heq, h⟩
      obtain ⟨h1, h2⟩ := List.append_eq_nil.1 heq.symm
      subst h1; subst h2
      simpa [likeMatches] using h
  | cons d s ih =>
    rw [show likeMatches ('%' :: p) (d :: s)
        = (likeMatches p (d :: s) || likeMatches ('%' :: p) s) from by
      simp [likeMatches]]
    rw [Bool.or_eq_true, ih]
    constructor
    · rintro (h | ⟨s1, s2, rfl, h⟩)
      · exact ⟨[], d :: s, rfl, h⟩
      · exact ⟨d :: s1, s2, rfl, h⟩
    · rintro ⟨s1, s2, heq, h⟩
      cases s1 with
      | nil =>
        left
        rw [List.nil_append] at heq
        rw [heq]
        exact h
      | cons e s1 =>
        right
        rw [List.cons_append] at heq
        injection heq with h1 h2
        exact ⟨s1, s2, h2, h⟩

theorem likeMatches_all (s : List Char) : likeMatches ['%'] s = true := by
  induction s with
  | nil => simp [likeMatches]
  | cons d s ih => simp [likeMatches, ih]

theorem likeMatches_lit_pct_iff :
    ∀ (t : List Char), '%' ∉ t → '_' ∉ t → '\\' ∉ t → ∀ s : List Char,
      (likeMatches (t ++ ['%']) s = true ↔
        ∃ s1 s2, s = s1 ++ s2 ∧ lowerStr s1 = lowerStr t) := by
  intro t
  induction t with
  | nil =>
    intro _ _ _ s
    rw [List.nil_append]
    exact iff_of_true (likeMatches_all s) ⟨[], s, rfl, rfl⟩
  | cons c t ih =>
    intro ht1 ht2 ht3 s
    have hc1 : c ≠ '%' := fun h => ht1 (h ▸ List.mem_cons_self c t)
    have hc2 : c ≠ '_' := fun h => ht2 (h ▸ List.mem_cons_self c t)
    have hc3 : c ≠ '\\' := fun h => ht3 (h ▸ List.mem_cons_self c t)
    have ht1' : '%' ∉ t := fun h => ht1 (List.mem_cons_of_mem c h)
    have ht2' : '_' ∉ t := fun h => ht2 (List.mem_cons_of_mem c h)
    have ht3' : '\\' ∉ t := fun h => ht3 (List.mem_cons_of_mem c h)
    cases s with
    | nil =>
      rw [List.cons_append]
      constructor
      · intro h
        rw [show likeMatches (c :: (t ++ ['%'])) [] = false from by
          simp [likeMatches, hc1, hc3]] at h
        exact Bool.noConfusion h
      · rintro ⟨s1, s2, heq, hl⟩
        obtain ⟨h1, -⟩ := List.append_eq_nil.1 heq.symm
        subst h1
        simp [lowerStr] at hl
    | cons d s =>
      rw [List.cons_append]
      rw [show likeMatches (c :: (t ++ ['%'])) (d :: s)
          = ((c == '_' || Char.toLower c == Char.toLower d) &&
              likeMatches (t ++ ['%']) s) from by
        simp [likeMatches, hc1, hc3]]
      have hcu : (c == '_') = false := by
        simp [hc2]
      rw [hcu, Bool.false_or, Bool.and_eq_true, beq_iff_eq, ih ht1' ht2' ht3' s]
      constructor
      · rintro ⟨hcd, s1, s2, rfl, hl⟩
        refine ⟨d :: s1, s2, rfl, ?_⟩
        simp only [lowerStr, List.map_cons] at hl ⊢
        rw [hl, hcd]
      · rintro ⟨s1, s2, heq, hl⟩
        cases s1 with
        | nil => simp [lowerStr] at hl
        | cons e s1 =>
          rw [List.cons_append] at heq
          injection heq with h1 h2
          subst h1
          simp only [lowerStr, List.map_cons] at hl
          injection hl with hl1 hl2
          exact ⟨hl1.symm, s1, s2, h2, hl2⟩

/-- For a term without `LIKE` wildcard or escape characters, the pattern
`%term%` built by the code matches a string exactly when the lowercased
term is a contiguous sublist of the lowercased string. -/
theorem likeMatches_pctWrap_iff (t s : List Char)
    (ht1 : '%' ∉ t) (ht2 : '_' ∉ t) (ht3 : '\\' ∉ t) :
    likeMatches (pctWrap t) s = true ↔ lowerStr t <:+: lowerStr s := by
  rw [pctWrap, likeMatches_pct_iff]
  constructor
  · rintro ⟨s1, s2, rfl, h⟩
    obtain ⟨u, v, rfl, hl⟩ := (likeMatches_lit_pct_iff t ht1 ht2 ht3 s2).1 h
    refine ⟨lowerStr s1, lowerStr v, ?_⟩
    simp only [lowerStr, List.map_append] at hl ⊢
    rw [← hl, List.append_assoc]
  · rintro ⟨x, y, hxy⟩
    have hxy2 : lowerStr s = x ++ (lowerStr t ++ y) := by
      rw [← hxy, List.append_assoc]
    obtain ⟨s1, rest, rfl, hm1, hmrest⟩ := exists_of_map_eq_append
      (f := Char.toLower) (l := s) (a := x) (b := lowerStr t ++ y) hxy2
    obtain ⟨u, v, rfl, hmu, hmv⟩ := exists_of_map_eq_append
      (l := rest) (a := lowerStr t) (b := y) hmrest
    refine ⟨s1, u ++ v, rfl, ?_⟩
    exact (likeMatches_lit_pct_iff t ht1 ht2 ht3 (u ++ v)).2 ⟨u, v, rfl, hmu⟩

/-- C8 (counterexample): the query consisting of the single character `%`
(a non-empty query) passes the text predicate against the medicine named
Aspirin although it is not a case-insensitive substring of the name, the
generic name or the manufacturer — the raw term is interpolated into the
`ilike` pattern, so its wildcard characters are interpreted, not matched
literally. -/
theorem C8_counterexample :
    (['%'] : List Char) ≠ [] ∧
      matchesText ['%'] medFar = true ∧
      ¬ (lowerStr ['%'] <:+: lowerStr medFar.name ∨
          (∃ g, medFar.generic_name = some g ∧ lowerStr ['%'] <:+: lowerStr g) ∨
          (∃ f, medFar.manufacturer = some f ∧ lowerStr ['%'] <:+: lowerStr f)) := by
  refine ⟨by decide, ?_, ?_⟩
  · simp [matchesText, pctWrap, likeMatches, medFar]
  · rintro (h | ⟨g, hg, -⟩ | ⟨f, hf, -⟩)
    · revert h
      decide
    · exact Option.noConfusion hg
    · exact Option.noConfusion hf

theorem likeMatchesOpt_pctWrap_iff (t : List Char) (o : Option (List Char))
    (ht1 : '%' ∉ t) (ht2 : '_' ∉ t) (ht3 : '\\' ∉ t) :
    likeMatchesOpt (pctWrap t) o = true ↔
      ∃ g, o = some g ∧ lowerStr t <:+: lowerStr g := by
  cases o with
  | none => simp [likeMatchesOpt]
  | some g => simp [likeMatchesOpt, likeMatches_pctWrap_iff t g ht1 ht2 ht3]

/-- C8 (amended): for a non-empty query without `LIKE` wildcard or escape
characters (`%`, `_`, `\\` — these are interpolated raw into the `ilike`
pattern and act as pattern syntax) and without the PostgREST `or()` syntax
characters (`,`, `(`, `)` — these corrupt the filter expression itself and
lie outside the predicate model), an inventory row passes the text
predicate iff the query is a case-insensitive substring of its name, of its
(non-`NULL`) generic name, or of its (non-`NULL`) manufacturer, combined by
logical OR; and the predicate influences the output only through which rows
survive the query filter, never the order: two queries selecting the same
rows produce identical output. -/
theorem C8_substring_predicate :
    (∀ (term : List Char) (m : MedRow), '%' ∉ term → '_' ∉ term →
        '\\' ∉ term → ',' ∉ term → '(' ∉ term → ')' ∉ term →
        (matchesText term m = true ↔
          (lowerStr term <:+: lowerStr m.name ∨
            (∃ g, m.generic_name = some g ∧ lowerStr term <:+: lowerStr g) ∨
            (∃ f, m.manufacturer = some f ∧ lowerStr term <:+: lowerStr f)))) ∧
      ∀ (db1 db2 : List MedRow) (t1 t2 : List Char) (lat lng : Option ℝ)
        (radius : ℝ), runQuery db1 t1 = runQuery db2 t2 →
        searchMedicines (.tables db1) t1 lat lng radius
          = searchMedicines (.tables db2) t2 lat lng radius := by
  constructor
  · intro term m h1 h2 h3 _ _ _
    unfold matchesText
    rw [Bool.or_eq_true, Bool.or_eq_true,
      likeMatches_pctWrap_iff term _ h1 h2 h3,
      likeMatchesOpt_pctWrap_iff term _ h1 h2 h3,
      likeMatchesOpt_pctWrap_iff term _ h1 h2 h3, or_assoc]
  · intro db1 db2 t1 t2 lat lng radius h
    rw [searchMedicines_tables, searchMedicines_tables, h]

/-- C8 (witness): the wildcard-, escape- and syntax-free query `asp`
against the Aspirin row. -/
theorem C8_witness :
    ('%' ∉ ("asp".toList)) ∧ ('_' ∉ ("asp".toList)) ∧
      ('\\' ∉ ("asp".toList)) ∧ (',' ∉ ("asp".toList)) ∧
      ('(' ∉ ("asp".toList)) ∧ (')' ∉ ("asp".toList)) ∧
      (matchesText ("asp".toList) medFar = true ↔
        (lowerStr ("asp".toList) <:+: lowerStr medFar.name ∨
          (∃ g, medFar.generic_name = some g ∧
            lowerStr ("asp".toList) <:+: lowerStr g) ∨
          (∃ f, medFar.manufacturer = some f ∧
            lowerStr ("asp".toList) <:+: lowerStr f))) :=
  ⟨by decide, by decide, by decide, by decide, by decide, by decide,
    C8_substring_predicate.1 ("asp".toList) medFar (by decide) (by decide)
      (by decide) (by decide) (by decide) (by decide)⟩

/-! ### C6: the distance function against the spec's haversine formula -/

theorem atan2_of_pos {y x : ℝ} (hx : 0 < x) :
    atan2 y x = Real.arctan (y / x) := by
  unfold atan2
  rw [if_pos hx]

/-- On `[0, 1]`, the code's `atan2(√a, √(1−a))` agrees with the spec's
`asin(√a)`. -/
theorem atan2_sqrt_eq_arcsin {a : ℝ} (h0 : 0 ≤ a) (h1 : a ≤ 1) :
    atan2 (Real.sqrt a) (Real.sqrt (1 - a)) = Real.arcsin (Real.sqrt a) := by
  rcases lt_or_eq_of_le h1 with hlt | heq
  · have hx : 0 < Real.sqrt (1 - a) := Real.sqrt_pos.2 (by linarith)
    rw [atan2_of_pos hx]
    have hsa : Real.sqrt a < 1 := by
      rw [show (1:ℝ) = Real.sqrt 1 from Real.sqrt_one.symm]
      exact Real.sqrt_lt_sqrt h0 hlt
    have hmem : Real.sqrt a ∈ Set.Ioo (-(1:ℝ)) 1 :=
      ⟨lt_of_lt_of_le (by norm_num) (Real.sqrt_nonneg a), hsa⟩
    rw [Real.arcsin_eq_arctan hmem, Real.sq_sqrt h0]
  · subst heq
    rw [show (1:ℝ) - 1 = 0 by norm_num, Real.sqrt_zero, Real.sqrt_one]
    unfold atan2
    rw [if_neg (lt_irrefl 0), if_neg (lt_irrefl 0), if_pos one_pos,
      Real.arcsin_one]

/-- The haversine argument `a` computed by the code lies in `[0, 1]`
whenever both latitudes are geographically valid (within ±90 degrees). -/
theorem havArg_bounds (lat1 lon1 lat2 lon2 : ℝ)
    (h1 : |lat1| ≤ 90) (h2 : |lat2| ≤ 90) :
    0 ≤ Real.sin ((lat2 - lat1) * π / 180 / 2) *
          Real.sin ((lat2 - lat1) * π / 180 / 2) +
        Real.cos (lat1 * π / 180) * Real.cos (lat2 * π / 180) *
          Real.sin ((lon2 - lon1) * π / 180 / 2) *
          Real.sin ((lon2 - lon1) * π / 180 / 2) ∧
      Real.sin ((lat2 - lat1) * π / 180 / 2) *
          Real.sin ((lat2 - lat1) * π / 180 / 2) +
        Real.cos (lat1 * π / 180) * Real.cos (lat2 * π / 180) *
          Real.sin ((lon2 - lon1) * π / 180 / 2) *
          Real.sin ((lon2 - lon1) * π / 180 / 2) ≤ 1 := by
  have hpi := Real.pi_pos
  obtain ⟨h1l, h1r⟩ := abs_le.1 h1
  obtain ⟨h2l, h2r⟩ := abs_le.1 h2
  have hp1 : -(π / 2) ≤ lat1 * π / 180 ∧ lat1 * π / 180 ≤ π / 2 := by
    constructor <;> nlinarith
  have hp2 : -(π / 2) ≤ lat2 * π / 180 ∧ lat2 * π / 180 ≤ π / 2 := by
    constructor <;> nlinarith
  have hc1 : 0 ≤ Real.cos (lat1 * π / 180) :=
    Real.cos_nonneg_of_mem_Icc ⟨hp1.1, hp1.2⟩
  have hc2 : 0 ≤ Real.cos (lat2 * π / 180) :=
    Real.cos_nonneg_of_mem_Icc ⟨hp2.1, hp2.2⟩
  have hs1 := sq_nonneg (Real.sin ((lat2 - lat1) * π / 180 / 2))
  have hs2 := sq_nonneg (Real.sin ((lon2 - lon1) * π / 180 / 2))
  have hs2le : Real.sin ((lon2 - lon1) * π / 180 / 2) ^ 2 ≤ 1 :=
    Real.sin_sq_le_one _
  constructor
  · nlinarith [mul_nonneg hc1 hc2]
  · have hkey : Real.sin ((lat2 - lat1) * π / 180 / 2) ^ 2
        = 1 / 2 - Real.cos (lat2 * π / 180 - lat1 * π / 180) / 2 := by
      rw [Real.sin_sq_eq_half_sub,
        show 2 * ((lat2 - lat1) * π / 180 / 2) = lat2 * π / 180 - lat1 * π / 180
          from by ring]
    have hsub := Real.cos_sub (lat2 * π / 180) (lat1 * π / 180)
    have hadd := Real.cos_add (lat1 * π / 180) (lat2 * π / 180)
    have hle := Real.cos_le_one (lat1 * π / 180 + lat2 * π / 180)
    nlinarith [mul_le_of_le_one_right (mul_nonneg hc1 hc2) hs2le,
      mul_nonneg hc1 hc2]

/-- The source `calculateDistance` coincides with the spec's haversine
formula `2R·asin(√(…))` at every pair of valid latitudes. -/
theorem calculateDistance_eq_haversineSpec (lat1 lon1 lat2 lon2 : ℝ)
    (h1 : |lat1| ≤ 90) (h2 : |lat2| ≤ 90) :
    calculateDistance lat1 lon1 lat2 lon2
      = haversineSpec lat1 lon1 lat2 lon2 := by
  obtain ⟨hb0, hb1⟩ := havArg_bounds lat1 lon1 lat2 lon2 h1 h2
  unfold calculateDistance haversineSpec
  dsimp only
  rw [atan2_sqrt_eq_arcsin hb0 hb1]
  ring_nf

/-- The distance from a point to itself is exactly 0. -/
theorem calculateDistance_self (x y : ℝ) : calculateDistance x y x y = 0 := by
  unfold calculateDistance
  dsimp only
  rw [show (x - x) * π / 180 = 0 by ring, show (y - y) * π / 180 = 0 by ring]
  rw [show (0:ℝ) / 2 = 0 by norm_num, Real.sin_zero]
  rw [show (0:ℝ) * 0 + Real.cos (x * π / 180) * Real.cos (x * π / 180) * 0 * 0
      = 0 by ring]
  rw [Real.sqrt_zero, show (1:ℝ) - 0 = 1 by norm_num, Real.sqrt_one,
    atan2_of_pos one_pos]
  rw [show (0:ℝ) / 1 = 0 by norm_num, Real.arctan_zero]
  ring

theorem addDistance_some (la lo : ℝ) {m : MedRow} {st : StoreRow}
    {sla slo : ℝ} (hm : m.stores = some st) (hla : st.latitude = some sla)
    (hlo : st.longitude = some slo) (h1 : sla ≠ 0) (h2 : slo ≠ 0) :
    addDistance la lo m = ⟨m, some (calculateDistance la lo sla slo)⟩ := by
  unfold addDistance
  rw [hm]
  dsimp only
  rw [hla, hlo]
  dsimp only
  rw [if_pos ⟨h1, h2⟩]

/-- The Delhi store of the spec's round-trip test. -/
def paraStore : StoreRow := ⟨6, some 28.6139, some 77.2090⟩

/-- The spec's round-trip item: Paracetamol, quantity 50, available, no
expiry, stocked at `paraStore`. -/
def paraRow : MedRow :=
  ⟨6, "Paracetamol".toList, none, none, 50, none, true, some paraStore⟩

theorem eval_paracetamol :
    searchMedicines (.tables [paraRow]) ("paracetamol".toList)
        (some (28.6139:ℝ)) (some (77.2090:ℝ)) 10 = .ok [⟨paraRow, some 0⟩] := by
  have hmt : matchesText ("paracetamol".toList) paraRow = true := by
    simp [matchesText, pctWrap, likeMatches, paraRow]
  have hqf : queryFilter ("paracetamol".toList) paraRow = true := by
    unfold queryFilter
    rw [hmt]
    simp [paraRow, searchTermActive, jsTrim]
  have hq : runQuery [paraRow] ("paracetamol".toList) = [paraRow] := by
    unfold runQuery
    rw [List.filter_cons, hqf]
    simp
  rw [searchMedicines_tables, hq,
    processResults_located _ _ (by norm_num) (by norm_num) (by simp)]
  have haddP : addDistance 28.6139 77.2090 paraRow = ⟨paraRow, some 0⟩ := by
    rw [addDistance_some 28.6139 77.2090 rfl rfl rfl (by norm_num) (by norm_num),
      calculateDistance_self]
  unfold rankedCandidates
  rw [List.map_cons, List.map_nil, haddP, List.filter_cons,
    show distLe 10 (⟨paraRow, some 0⟩ : SearchResult) = true from
      decide_eq_true (by norm_num)]
  simp [List.insertionSort, List.orderedInsert]

/-- C6: the source `calculateDistance` computes exactly the haversine
great-circle distance of the spec's formula (for valid latitudes), the
distance from a point to itself is exactly 0, and the spec's round-trip
test holds: searching `paracetamol` (case-insensitive) from the store's own
Delhi coordinates with radius 10 returns exactly that item with distance
0.0 km. -/
theorem C6_haversine_roundtrip :
    (∀ lat1 lon1 lat2 lon2 : ℝ, |lat1| ≤ 90 → |lat2| ≤ 90 →
        calculateDistance lat1 lon1 lat2 lon2
          = haversineSpec lat1 lon1 lat2 lon2) ∧
      (∀ x y : ℝ, calculateDistance x y x y = 0) ∧
        searchMedicines (.tables [paraRow]) ("paracetamol".toList)
            (some (28.6139:ℝ)) (some (77.2090:ℝ)) 10
          = .ok [⟨paraRow, some 0⟩] :=
  ⟨calculateDistance_eq_haversineSpec, calculateDistance_self,
    eval_paracetamol⟩

/-- C6 (witness): the formula instance at the Delhi coordinates. -/
theorem C6_witness :
    |(28.6139:ℝ)| ≤ 90 ∧
      calculateDistance 28.6139 77.2090 28.6139 77.2090
        = haversineSpec 28.6139 77.2090 28.6139 77.2090 :=
  ⟨abs_le.2 ⟨by norm_num, by norm_num⟩,
    C6_haversine_roundtrip.1 28.6139 77.2090 28.6139 77.2090
      (abs_le.2 ⟨by norm_num, by norm_num⟩)
      (abs_le.2 ⟨by norm_num, by norm_num⟩)⟩

/-! ### C3 counterexample: a store at the origin sorts last, not first -/

theorem atan2_sqrt_bounds {a : ℝ} (h0 : 0 < a) (h1 : a < 1/2) :
    0 < atan2 (Real.sqrt a) (Real.sqrt (1 - a)) ∧
      atan2 (Real.sqrt a) (Real.sqrt (1 - a)) ≤ 2 * Real.sqrt a := by
  have hx : 0 < Real.sqrt (1 - a) := Real.sqrt_pos.2 (by linarith)
  rw [atan2_of_pos hx]
  have hy : 0 < Real.sqrt a := Real.sqrt_pos.2 h0
  have hq : 0 < Real.sqrt a / Real.sqrt (1 - a) := div_pos hy hx
  have harcpos : 0 < Real.arctan (Real.sqrt a / Real.sqrt (1 - a)) := by
    have := Real.arctan_strictMono hq
    rwa [Real.arctan_zero] at this
  refine ⟨harcpos, ?_⟩
  have harcle : Real.arctan (Real.sqrt a / Real.sqrt (1 - a))
      ≤ Real.sqrt a / Real.sqrt (1 - a) := by
    have h2' := Real.arctan_lt_pi_div_two (Real.sqrt a / Real.sqrt (1 - a))
    have h3' := Real.lt_tan harcpos h2'
    rw [Real.tan_arctan] at h3'
    exact h3'.le
  have hge : (1:ℝ)/2 ≤ Real.sqrt (1 - a) := by
    rw [show (1:ℝ)/2 = Real.sqrt (1/4) from by
      rw [show (1:ℝ)/4 = (1/2)^2 by norm_num, Real.sqrt_sq (by norm_num)]]
    exact Real.sqrt_le_sqrt (by linarith)
  have hqle : Real.sqrt a / Real.sqrt (1 - a) ≤ 2 * Real.sqrt a := by
    rw [div_le_iff₀ hx]
    nlinarith [mul_le_mul_of_nonneg_left hge
      (by positivity : (0:ℝ) ≤ 2 * Real.sqrt a)]
  linarith

/-- The haversine distance between (1, 1) and (1, 2) — one degree of
longitude near the equator — is strictly positive and well below the
sentinel 9999. -/
theorem calculateDistance_near_bounds :
    0 < calculateDistance 1 1 1 2 ∧ calculateDistance 1 1 1 2 < 9999 := by
  unfold calculateDistance
  dsimp only
  rw [show ((1:ℝ) - 1) * π / 180 = 0 by ring,
    show ((2:ℝ) - 1) * π / 180 = π / 180 by ring,
    show (0:ℝ) / 2 = 0 by norm_num, Real.sin_zero,
    show (1:ℝ) * π / 180 = π / 180 by ring,
    show π / 180 / 2 = π / 360 by ring]
  have hπ := Real.pi_pos
  have hcos : 0 < Real.cos (π / 180) := by
    apply Real.cos_pos_of_mem_Ioo
    constructor <;> [nlinarith; nlinarith]
  have hsin : 0 < Real.sin (π / 360) := by
    apply Real.sin_pos_of_pos_of_lt_pi <;> nlinarith
  have hsinle : Real.sin (π / 360) ≤ π / 360 := Real.sin_le (by positivity)
  have hπlt : π < 3.15 := Real.pi_lt_d2
  rw [show (0:ℝ) * 0 +
      Real.cos (π/180) * Real.cos (π/180) * Real.sin (π/360) * Real.sin (π/360)
      = (Real.cos (π/180) * Real.sin (π/360)) * (Real.cos (π/180) * Real.sin (π/360))
      from by ring]
  set A := Real.cos (π / 180) * Real.sin (π / 360) with hA
  have hA0 : 0 < A := mul_pos hcos hsin
  have hAle : A ≤ Real.sin (π / 360) := by
    calc A ≤ 1 * Real.sin (π / 360) :=
          mul_le_mul_of_nonneg_right (Real.cos_le_one _) hsin.le
      _ = Real.sin (π / 360) := one_mul _
  have hAsmall : A < 1/100 := by
    have : Real.sin (π / 360) < 1/100 := by nlinarith
    linarith
  have hAA : 0 < A * A := mul_pos hA0 hA0
  have hAAlt : A * A < 1/2 := by nlinarith
  have hsq : Real.sqrt (A * A) = A := Real.sqrt_mul_self hA0.le
  obtain ⟨hb1, hb2⟩ := atan2_sqrt_bounds hAA hAAlt
  rw [hsq] at hb1 hb2
  rw [hsq]
  constructor
  · nlinarith
  · nlinarith

/-- The two equally named medicines of the C3 counterexample: one stocked
exactly at the test origin (1, 1), one a degree of longitude away. -/
def storeAtOrigin : StoreRow := ⟨4, some 1, some 1⟩

def medAtOrigin : MedRow :=
  ⟨4, "Dolo".toList, none, none, 5, none, true, some storeAtOrigin⟩

def storeNear : StoreRow := ⟨5, some 1, some 2⟩

def medNear : MedRow :=
  ⟨5, "Dolo".toList, none, none, 5, none, true, some storeNear⟩

/-- C3 (counterexample): with the truthy origin (1, 1) and positive radius
9999, a medicine stocked at the origin itself (computed distance exactly 0)
is returned AFTER the strictly farther store: the comparator
`(a.distance_km || 9999)` coerces the distance 0 to 9999, so the output
`[far store at distance d > 0, origin store at distance 0]` is not sorted
non-decreasingly by computed distance. -/
theorem C3_counterexample :
    searchMedicines (.tables [medAtOrigin, medNear]) [] (some 1) (some 1) 9999
        = .ok [⟨medNear, some (calculateDistance 1 1 1 2)⟩,
            ⟨medAtOrigin, some 0⟩] ∧
      0 < calculateDistance 1 1 1 2 := by
  obtain ⟨hd0, hd9999⟩ := calculateDistance_near_bounds
  refine ⟨?_, hd0⟩
  have hq : runQuery [medAtOrigin, medNear] [] = [medAtOrigin, medNear] := rfl
  rw [searchMedicines_tables, hq,
    processResults_located _ _ (by norm_num) (by norm_num) (by simp)]
  have haddA : addDistance 1 1 medAtOrigin = ⟨medAtOrigin, some 0⟩ := by
    rw [addDistance_some 1 1 rfl rfl rfl (by norm_num) (by norm_num),
      calculateDistance_self]
  have haddB : addDistance 1 1 medNear
      = ⟨medNear, some (calculateDistance 1 1 1 2)⟩ :=
    addDistance_some 1 1 rfl rfl rfl (by norm_num) (by norm_num)
  unfold rankedCandidates
  rw [List.map_cons, List.map_cons, List.map_nil, haddA, haddB,
    List.filter_cons, List.filter_cons,
    show distLe 9999 (⟨medAtOrigin, some 0⟩ : SearchResult) = true from
      decide_eq_true (by norm_num),
    show distLe 9999 (⟨medNear, some (calculateDistance 1 1 1 2)⟩ : SearchResult)
        = true from decide_eq_true hd9999.le]
  simp only [List.filter_nil, if_pos rfl]
  have hkA : jsSortKey ⟨medAtOrigin, some 0⟩ = 9999 := by
    unfold jsSortKey
    dsimp only
    rw [if_pos rfl]
  have hkB : jsSortKey ⟨medNear, some (calculateDistance 1 1 1 2)⟩
      = calculateDistance 1 1 1 2 := by
    unfold jsSortKey
    dsimp only
    rw [if_neg hd0.ne']
  have hnot : ¬ sortRel ⟨medAtOrigin, some 0⟩
      ⟨medNear, some (calculateDistance 1 1 1 2)⟩ := by
    unfold sortRel
    rw [hkA, hkB]
    linarith
  simp only [List.insertionSort, List.orderedInsert]
  rw [if_neg hnot]

end MedSearch
